import Mathlib

/-!
Verification of the steel-frame analysis package.

This file gives a shallow embedding, in Lean, of the computational core of
the repository (model/structural_analysis.py together with the inline
verification pipeline of test-streamlit.py) and proves properties of the
embedded functions.

Real-valued numerics (the stability factor, the code-check ratio formulas)
are embedded over the real numbers; the discrete topology generators are
embedded over the rationals so that concrete instances evaluate by decide.
Python float('inf') sentinels are embedded as a dedicated Ratio type with an
infinite constructor.  Python dictionaries are embedded as Option-valued
functions (for session override maps) or association lists (for the node
dictionary built by generate_model_data).
-/

namespace SteelFrame

/-! ## Code-check engine: stability factor (structural_analysis.py, phi_gb50017) -/

/-- Error outcomes of phi_gb50017: the ValueError raised for a section class
outside the alpha table, and the ValueError raised for a discriminant more
negative than the 1e-10 noise tolerance. -/
inductive PhiError where
  | invalidClass
  | invalidSlenderness
deriving DecidableEq

/-- The per-class alpha table of phi_gb50017
(alpha_dict with keys a, b, c, d). -/
noncomputable def alpha_dict (section_class : String) : Option ℝ :=
  if section_class = "a" then some 0.21
  else if section_class = "b" then some 0.34
  else if section_class = "c" then some 0.49
  else if section_class = "d" then some 0.76
  else none

/-- Embedding of phi_gb50017 (structural_analysis.py lines 116-141).
The branch structure mirrors the source: an early return 1.0 for
lambda_val less or equal 0, then the normalized slenderness, then the class
table lookup (raising for an unknown class), then the 0.215 plateau, then
the discriminant with its negative-noise tolerance of 1e-10. -/
noncomputable def phi_gb50017 (lambda_val : ℝ) (section_class : String)
    (fy E : ℝ) : Except PhiError ℝ :=
  if lambda_val ≤ 0 then Except.ok 1
  else
    let lambda_bar := (lambda_val / Real.pi) * Real.sqrt (fy / E)
    match alpha_dict section_class with
    | none => Except.error PhiError.invalidClass
    | some alpha =>
      if lambda_bar ≤ 0.215 then Except.ok 1
      else
        let phi_prime := 0.5 * (1 + alpha * (lambda_bar - 0.215) + lambda_bar ^ 2)
        let discriminant := phi_prime ^ 2 - lambda_bar ^ 2
        if discriminant < 0 then
          if discriminant > -1e-10 then
            Except.ok (min (1 / (phi_prime + Real.sqrt 0)) 1)
          else Except.error PhiError.invalidSlenderness
        else Except.ok (min (1 / (phi_prime + Real.sqrt discriminant)) 1)

/-! ## Code-check engine: ratio formulas -/

/-- A code-check ratio: either a finite real or the float('inf') sentinel. -/
inductive Ratio where
  | finite (r : ℝ)
  | infinite

/-- A ratio that is either the infinite sentinel or finite and nonnegative. -/
def Ratio.nonnegOrInfinite : Ratio → Prop
  | Ratio.finite r => 0 ≤ r
  | Ratio.infinite => True

/-- Embedding of calculate_beam_strength_check
(structural_analysis.py lines 175-186).  Note the source applies no absolute
value to its force arguments. -/
noncomputable def calculate_beam_strength_check
    (axial_force_kN moment_kN_m shear_kN A_net_mm2 Wx_net_mm3 Aw f fv
      gamma_x : ℝ) : ℝ × ℝ :=
  let N := axial_force_kN * 1000
  let M := moment_kN_m * 1e6
  let V := shear_kN * 1000
  let strength_ratio := (N / A_net_mm2 + M / (gamma_x * Wx_net_mm3)) / f
  let shear_ratio := V / (Aw * fv)
  (strength_ratio, shear_ratio)

/-- Embedding of calculate_column_stability_check
(structural_analysis.py lines 189-225).  Both Euler loads N_ex and N_ey are
computed from lambda_x in the source; lambda_y is not a parameter of the
function.  phi_b is the fixed 1.0 of the source. -/
noncomputable def calculate_column_stability_check
    (axial_force_kN moment_kN_m A_net_mm2 Wx_net_mm3 phi_x phi_y f lambda_x
      gamma_x beta_mx eta beta_ty : ℝ) : Ratio × Ratio :=
  let N := axial_force_kN * 1000
  let M := moment_kN_m * 1e6
  let E : ℝ := 2.06e5
  let N_ex := (Real.pi ^ 2 * E * A_net_mm2) / lambda_x ^ 2
  let ratio_in :=
    if N_ex ≤ N then Ratio.infinite
    else
      Ratio.finite (N / (phi_x * A_net_mm2 * f) +
        (beta_mx * M) / (gamma_x * Wx_net_mm3 * f * (1 - 0.8 * N / N_ex)))
  let phi_b : ℝ := 1.0
  let N_ey := (Real.pi ^ 2 * E * A_net_mm2) / lambda_x ^ 2
  let ratio_out :=
    if N_ey ≤ N then Ratio.infinite
    else
      let term1_out := N / (phi_y * A_net_mm2 * f)
      let denominator := (eta + (1 - eta) * phi_b) * Wx_net_mm3 * f * (1 - N / N_ey)
      if denominator ≤ 0 then Ratio.infinite
      else Ratio.finite (term1_out + (beta_ty * M) / denominator)
  (ratio_in, ratio_out)

/-- Embedding of the beam branch of perform_verification
(test-streamlit.py lines 812-851): the driver takes absolute values of the
end forces, forms the maxima, and calls calculate_beam_strength_check with
gamma_x = 1.05. -/
noncomputable def verification_beam_ratios
    (force0 force1 force2 force4 force5 A_net_mm2 Wx_net_mm3 Aw f fv : ℝ) :
    ℝ × ℝ :=
  let axial_force_kN := |force0|
  let shear_i_kN := |force1|
  let moment_i_kN_m := |force2|
  let shear_j_kN := |force4|
  let moment_j_kN_m := |force5|
  let max_moment_kN_m := max moment_i_kN_m moment_j_kN_m
  let max_shear_kN := max shear_i_kN shear_j_kN
  calculate_beam_strength_check axial_force_kN max_moment_kN_m max_shear_kN
    A_net_mm2 Wx_net_mm3 Aw f fv 1.05

/-- Embedding of the inline column check of perform_verification
(test-streamlit.py lines 871-937): absolute values of the end forces,
beta_mx = 1, gamma_x = 1.05, phi_b = 1, eta = 0, beta_ty = 1, and, unlike
calculate_column_stability_check, an Euler load N_ey computed from
lambda_y. -/
noncomputable def verification_column_check
    (force1 force2 force5 A_net_mm2 Wx_net_mm3 phi_x phi_y f lambda_x
      lambda_y : ℝ) : Ratio × Ratio :=
  let axial_force_kN := |force1|
  let moment_i_kN_m := |force2|
  let moment_j_kN_m := |force5|
  let max_moment_kN_m := max moment_i_kN_m moment_j_kN_m
  let N := axial_force_kN * 1000
  let M := max_moment_kN_m * 1e6
  let beta_mx : ℝ := 1.0
  let gamma_x : ℝ := 1.05
  let E : ℝ := 2.06e5
  let N_ex := (Real.pi ^ 2 * E * A_net_mm2) / lambda_x ^ 2
  let ratio_in :=
    if N_ex ≤ N then Ratio.infinite
    else
      Ratio.finite (N / (phi_x * A_net_mm2 * f) +
        (beta_mx * M) / (gamma_x * Wx_net_mm3 * f * (1 - 0.8 * N / N_ex)))
  let phi_b : ℝ := 1.0
  let eta : ℝ := 0.0
  let beta_ty : ℝ := 1.0
  let N_ey := (Real.pi ^ 2 * E * A_net_mm2) / lambda_y ^ 2
  let ratio_out :=
    if N_ey ≤ N then Ratio.infinite
    else
      let term1_out := N / (phi_y * A_net_mm2 * f)
      let denominator := (eta + (1 - eta) * phi_b) * Wx_net_mm3 * f * (1 - N / N_ey)
      if denominator ≤ 0 then Ratio.infinite
      else Ratio.finite (term1_out + (beta_ty * M) / denominator)
  (ratio_in, ratio_out)

/-! ## Topology: solver model builder (analyze_frame_with_ops, lines 239-287)

The builder is embedded over the rationals.  Loops that thread the Python
node_id / ele_id counters are embedded as counter-passing recursions; loops
over range(n) are embedded as maps over List.range n. -/

/-- A node of the planar solver model: ops.node(id, x, z). -/
structure OpsNode where
  id : Nat
  x : ℚ
  z : ℚ
deriving DecidableEq

/-- An element of the solver model: ops.element(id, start_node, end_node). -/
structure OpsElement where
  id : Nat
  startNode : Nat
  endNode : Nat
deriving DecidableEq

/-- The cumulative-height loop body: successive running sums of the story
heights (analyze_frame_with_ops lines 243-245, loop extending cum_heights). -/
def cum_heights_from (acc : ℚ) : List ℚ → List ℚ
  | [] => []
  | h :: t => (acc + h) :: cum_heights_from (acc + h) t

/-- cum_heights starts at 0 and appends the running sums of height_list. -/
def cum_heights (heights : List ℚ) : List ℚ :=
  0 :: cum_heights_from 0 heights

/-- One row of nodes (the inner loop of lines 248-253): x_pos starts at 0 and
is advanced by the span widths; node_id advances by one per node.  The row
has one more node than there are spans. -/
def opsRow (nid : Nat) (x z : ℚ) : List ℚ → List OpsNode
  | [] => [⟨nid, x, z⟩]
  | s :: rest => ⟨nid, x, z⟩ :: opsRow (nid + 1) (x + s) z rest

/-- The outer node loop (lines 247-253): one row per entry of the cumulative
height list, with the node counter advancing by a full row each floor. -/
def opsNodesAux (spans : List ℚ) (nid : Nat) : List ℚ → List OpsNode
  | [] => []
  | z :: zs => opsRow nid 0 z spans ++ opsNodesAux spans (nid + (spans.length + 1)) zs

/-- All nodes of the solver model, counter starting at 1. -/
def opsNodes (spans heights : List ℚ) : List OpsNode :=
  opsNodesAux spans 1 (cum_heights heights)

/-- The fixed supports (line 255-256): nodes 1 .. len(spans)+1. -/
def opsSupports (spans : List ℚ) : List Nat :=
  (List.range (spans.length + 1)).map (fun i => i + 1)

/-- One floor of column elements (lines 265-274 inner loop): element ids
advance by one per column, start node on the floor, end node directly above. -/
def opsColRow (npf floor eid : Nat) : List OpsElement :=
  (List.range npf).map (fun colIdx =>
    ⟨eid + colIdx, floor * npf + colIdx + 1, (floor + 1) * npf + colIdx + 1⟩)

/-- The column loop over floors, threading the floor index and element
counter; the first argument is the number of floors still to process. -/
def opsColumnsAux (npf : Nat) : Nat → Nat → Nat → List OpsElement
  | 0, _, _ => []
  | k + 1, floor, eid => opsColRow npf floor eid ++ opsColumnsAux npf k (floor + 1) (eid + npf)

/-- All column elements: floors times (spans+1) columns, ids from 1. -/
def opsColumns (spans heights : List ℚ) : List OpsElement :=
  opsColumnsAux (spans.length + 1) heights.length 0 1

/-- One floor of beam elements (lines 277-287 inner loop): base node is
floor * npf + 1, each beam joins consecutive nodes of the floor. -/
def opsBeamRow (npf bays floor eid : Nat) : List OpsElement :=
  (List.range bays).map (fun spanIdx =>
    ⟨eid + spanIdx, floor * npf + spanIdx + 1, floor * npf + spanIdx + 2⟩)

/-- The beam loop over floors 1 .. floors, threading the element counter. -/
def opsBeamsAux (npf bays : Nat) : Nat → Nat → Nat → List OpsElement
  | 0, _, _ => []
  | k + 1, floor, eid => opsBeamRow npf bays floor eid ++ opsBeamsAux npf bays k (floor + 1) (eid + bays)

/-- All beam elements.  The element counter has been advanced once per
column by the column loop, so it resumes at floors * (spans+1) + 1. -/
def opsBeams (spans heights : List ℚ) : List OpsElement :=
  opsBeamsAux (spans.length + 1) spans.length heights.length 1
    (heights.length * (spans.length + 1) + 1)

/-! ## Topology: standalone preview generator (test-streamlit.py,
generate_model_data, lines 47-109) -/

/-- A node record of generate_model_data: (node_id, x, y, z) with y fixed 0. -/
structure GenNode where
  id : Nat
  x : ℚ
  y : ℚ
  z : ℚ
deriving DecidableEq

/-- Element kind tag of generate_model_data. -/
inductive ElemKind where
  | column
  | beam
deriving DecidableEq

/-- An element dict of generate_model_data: id, type, start/end node ids and
start/end coordinates. -/
structure GenElement where
  id : Nat
  kind : ElemKind
  startN : Nat
  endN : Nat
  startCoord : ℚ × ℚ × ℚ
  endCoord : ℚ × ℚ × ℚ
deriving DecidableEq

/-- sum(l[:n]) of Python: the sum of the first n entries. -/
def sum_take (l : List ℚ) (n : Nat) : ℚ :=
  (l.take n).sum

/-- One row of the node dictionary (lines 55-61 inner loop, and lines 64-69
for the top row): keys (i, j), x = sum(spans[:i]), y = 0, the given z, ids
advancing by one per node. -/
def genRow (spans : List ℚ) (j : Nat) (z : ℚ) (nid : Nat) :
    List ((Nat × Nat) × GenNode) :=
  (List.range (spans.length + 1)).map (fun i =>
    ((i, j), ⟨nid + i, sum_take spans i, 0, z⟩))

/-- The outer loop over the stories (lines 55-61), threading the floor index
and the node counter; the first argument counts the stories left. -/
def genRowsAux (spans heights : List ℚ) : Nat → Nat → Nat → List ((Nat × Nat) × GenNode)
  | 0, _, _ => []
  | k + 1, j, nid =>
    genRow spans j (sum_take heights j) nid ++
      genRowsAux spans heights k (j + 1) (nid + (spans.length + 1))

/-- The full node dictionary: the story rows followed by the top row at
z = sum(heights).  After the story loop the node counter has advanced to
len(heights) * (len(spans)+1) + 1, where the top row resumes. -/
def genNodes (spans heights : List ℚ) : List ((Nat × Nat) × GenNode) :=
  genRowsAux spans heights heights.length 0 1 ++
    genRow spans heights.length heights.sum (heights.length * (spans.length + 1) + 1)

/-- Python dict lookup nodes[(i, j)], first match in insertion order. -/
def dict_lookup (d : List ((Nat × Nat) × GenNode)) (key : Nat × Nat) :
    Option GenNode :=
  (d.find? (fun p => decide (p.1 = key))).map (fun p => p.2)

/-- The column element descriptions of lines 72-83: kind, start key (i, j),
end key (i, j+1), in loop order. -/
def genColumnSpecs (spans heights : List ℚ) :
    List (ElemKind × (Nat × Nat) × (Nat × Nat)) :=
  (List.range heights.length).flatMap (fun j =>
    (List.range (spans.length + 1)).map (fun i =>
      (ElemKind.column, (i, j), (i, j + 1))))

/-- The beam element descriptions of lines 86-97: floors 1 .. len(heights),
kind beam, start key (i, j), end key (i+1, j). -/
def genBeamSpecs (spans heights : List ℚ) :
    List (ElemKind × (Nat × Nat) × (Nat × Nat)) :=
  (List.range heights.length).flatMap (fun jm =>
    (List.range spans.length).map (fun i =>
      (ElemKind.beam, (i, jm + 1), (i + 1, jm + 1))))

/-- Build one element dict entry from its description, resolving both node
keys in the node dictionary (a missing key, impossible for the generated
keys, resolves to a zero node to keep the embedding total). -/
def mk_gen_element (d : List ((Nat × Nat) × GenNode)) (eid : Nat)
    (spec : ElemKind × (Nat × Nat) × (Nat × Nat)) : GenElement :=
  let s := (dict_lookup d spec.2.1).getD ⟨0, 0, 0, 0⟩
  let t := (dict_lookup d spec.2.2).getD ⟨0, 0, 0, 0⟩
  ⟨eid, spec.1, s.id, t.id, (s.x, s.y, s.z), (t.x, t.y, t.z)⟩

/-- elements.append with id = len(elements) + 1: ids count up from the
running length of the element list. -/
def gen_elements_go (d : List ((Nat × Nat) × GenNode)) (eid : Nat) :
    List (ElemKind × (Nat × Nat) × (Nat × Nat)) → List GenElement
  | [] => []
  | sp :: rest => mk_gen_element d eid sp :: gen_elements_go d (eid + 1) rest

/-- All elements of generate_model_data: columns first, then beams, ids
assigned by position starting at 1. -/
def genElements (spans heights : List ℚ) : List GenElement :=
  gen_elements_go (genNodes spans heights) 1
    (genColumnSpecs spans heights ++ genBeamSpecs spans heights)

/-- The support list of lines 100-101: the ids of the nodes keyed (i, 0). -/
def genSupports (spans heights : List ℚ) : List Nat :=
  (List.range (spans.length + 1)).map (fun i =>
    ((dict_lookup (genNodes spans heights) (i, 0)).getD ⟨0, 0, 0, 0⟩).id)

/-! ## Load aggregation (analyze_frame_with_ops, lines 289-317) -/

/-- The catalog default section name used by every .get fallback. -/
def default_steel : String :=
  "HW200x200x8x12"

/-- Resolved distributed load of one beam (lines 293-300): the per-element
override if present else the default, plus, when self-weight is on, the unit
weight of the assigned section converted from kg/m to kN/m. -/
def resolve_beam_load (beam_loads : Nat → Option ℚ) (default_load : ℚ)
    (include_self_weight : Bool) (element_steels : Nat → Option String)
    (weightOf : String → ℚ) (beam_id : Nat) : ℚ :=
  let load_value := (beam_loads beam_id).getD default_load
  let total_load := load_value
  if include_self_weight then
    let beam_dimension := (element_steels beam_id).getD default_steel
    total_load + weightOf beam_dimension * 9.81 / 1000
  else total_load

/-- The distributed loads applied by lines 293-302: one (element id, load)
pair per beam element, with the downward load negated as in the
ops.eleLoad call. -/
def ops_beam_loads (spans heights : List ℚ) (beam_loads : Nat → Option ℚ)
    (default_load : ℚ) (include_self_weight : Bool)
    (element_steels : Nat → Option String) (weightOf : String → ℚ) :
    List (Nat × ℚ) :=
  (opsBeams spans heights).map (fun b =>
    (b.id, -(resolve_beam_load beam_loads default_load include_self_weight
      element_steels weightOf b.id)))

/-- Element length from the model state (lines 309-314): the coordinates of
the two element nodes are fetched from the node table and the Euclidean
distance is taken. -/
noncomputable def element_length (nodes : List OpsNode) (e : OpsElement) : ℝ :=
  let s := (nodes.find? (fun a => decide (a.id = e.startNode))).getD ⟨0, 0, 0⟩
  let t := (nodes.find? (fun a => decide (a.id = e.endNode))).getD ⟨0, 0, 0⟩
  Real.sqrt (((t.x : ℝ) - (s.x : ℝ)) ^ 2 + ((t.z : ℝ) - (s.z : ℝ)) ^ 2)

/-- The nodal self-weight loads applied by lines 305-317: when self-weight
is on, each column contributes one downward force at its end (top) node of
unit weight times 9.81/1000 times the element length; no distributed load is
ever applied to a column. -/
noncomputable def ops_column_weight_loads (spans heights : List ℚ)
    (include_self_weight : Bool) (element_steels : Nat → Option String)
    (weightOf : String → ℚ) : List (Nat × ℝ) :=
  if include_self_weight then
    (opsColumns spans heights).map (fun c =>
      (c.endNode,
        -((weightOf ((element_steels c.id).getD default_steel) : ℝ) * 9.81 / 1000 *
          element_length (opsNodes spans heights) c)))
  else []

/-! ## Canonical grid forms of the topology generators -/

/-- Canonical node grid: floor j holds the nodes j*(bays+1)+i+1 at
x = sum of the first i spans and z = sum of the first j heights,
floor-by-floor from the ground, left-to-right. -/
def nodeGrid (spans heights : List ℚ) : List OpsNode :=
  (List.range (heights.length + 1)).flatMap (fun j =>
    (List.range (spans.length + 1)).map (fun i =>
      ⟨j * (spans.length + 1) + i + 1, sum_take spans i, sum_take heights j⟩))

/-- Canonical column grid: ids 1 .. floors*npf, bottom node to top node. -/
def colGrid (npf floors : Nat) : List OpsElement :=
  (List.range floors).flatMap (fun j =>
    (List.range npf).map (fun i =>
      ⟨j * npf + i + 1, j * npf + i + 1, (j + 1) * npf + i + 1⟩))

/-- Canonical beam grid: ids continue contiguously after the columns. -/
def beamGrid (npf bays floors : Nat) : List OpsElement :=
  (List.range floors).flatMap (fun jm =>
    (List.range bays).map (fun i =>
      ⟨floors * npf + jm * bays + i + 1,
        (jm + 1) * npf + i + 1, (jm + 1) * npf + i + 2⟩))

/-- Canonical form of the column part of generate_model_data's elements. -/
def genColGrid (spans heights : List ℚ) : List GenElement :=
  (List.range heights.length).flatMap (fun j =>
    (List.range (spans.length + 1)).map (fun i =>
      ⟨j * (spans.length + 1) + i + 1, ElemKind.column,
        j * (spans.length + 1) + i + 1, (j + 1) * (spans.length + 1) + i + 1,
        (sum_take spans i, 0, sum_take heights j),
        (sum_take spans i, 0, sum_take heights (j + 1))⟩))

/-- Canonical form of the beam part of generate_model_data's elements. -/
def genBeamGrid (spans heights : List ℚ) : List GenElement :=
  (List.range heights.length).flatMap (fun jm =>
    (List.range spans.length).map (fun i =>
      ⟨heights.length * (spans.length + 1) + jm * spans.length + i + 1,
        ElemKind.beam,
        (jm + 1) * (spans.length + 1) + i + 1,
        (jm + 1) * (spans.length + 1) + i + 2,
        (sum_take spans i, 0, sum_take heights (jm + 1)),
        (sum_take spans (i + 1), 0, sum_take heights (jm + 1))⟩))

/-- The denominator of the stability factor at normalized slenderness u. -/
noncomputable def phiDenom (alpha u : ℝ) : ℝ :=
  0.5 * (1 + alpha * (u - 0.215) + u ^ 2) +
    Real.sqrt ((0.5 * (1 + alpha * (u - 0.215) + u ^ 2)) ^ 2 - u ^ 2)

/-- The piecewise description of phi_gb50017 claimed by the spec, for a
section class whose table entry is alpha: 1 for lambda ≤ 0; 1 on the
normalized-slenderness plateau up to 0.215; beyond the plateau the value
min(1, 1/(phi_prime + sqrt(phi_prime^2 - lambda_bar^2))) with a nonnegative
discriminant, and never the InvalidSlenderness error. -/
noncomputable def PhiPiecewiseClaim (lam : ℝ) (c : String)
    (alpha fy E : ℝ) : Prop :=
  (lam ≤ 0 → phi_gb50017 lam c fy E = Except.ok 1) ∧
  (0 < lam → (lam / Real.pi) * Real.sqrt (fy / E) ≤ 0.215 →
    phi_gb50017 lam c fy E = Except.ok 1) ∧
  (0 < lam → 0.215 < (lam / Real.pi) * Real.sqrt (fy / E) →
    0 ≤ (0.5 * (1 + alpha * ((lam / Real.pi) * Real.sqrt (fy / E) - 0.215) +
          ((lam / Real.pi) * Real.sqrt (fy / E)) ^ 2)) ^ 2 -
        ((lam / Real.pi) * Real.sqrt (fy / E)) ^ 2 ∧
    phi_gb50017 lam c fy E =
      Except.ok (min 1
        (1 / (0.5 * (1 + alpha * ((lam / Real.pi) * Real.sqrt (fy / E) - 0.215) +
              ((lam / Real.pi) * Real.sqrt (fy / E)) ^ 2) +
          Real.sqrt
            ((0.5 * (1 + alpha * ((lam / Real.pi) * Real.sqrt (fy / E) - 0.215) +
              ((lam / Real.pi) * Real.sqrt (fy / E)) ^ 2)) ^ 2 -
              ((lam / Real.pi) * Real.sqrt (fy / E)) ^ 2))))) ∧
  phi_gb50017 lam c fy E ≠ Except.error PhiError.invalidSlenderness

lemma sum_take_zero (l : List ℚ) : sum_take l 0 = 0 := rfl

lemma sum_take_cons (h : ℚ) (t : List ℚ) (n : Nat) :
    sum_take (h :: t) (n + 1) = h + sum_take t n := by
  simp [sum_take]

lemma sum_take_length (l : List ℚ) : sum_take l l.length = l.sum := by
  simp [sum_take]

lemma opsRow_eq (spans : List ℚ) : ∀ (nid : Nat) (x z : ℚ),
    opsRow nid x z spans =
      (List.range (spans.length + 1)).map
        (fun i => ⟨nid + i, x + sum_take spans i, z⟩) := by
  induction spans with
  | nil =>
    intro nid x z
    simp [opsRow, sum_take, List.range_succ]
  | cons s rest ih =>
    intro nid x z
    rw [opsRow, ih (nid + 1) (x + s) z]
    conv_rhs => rw [show (s :: rest).length + 1 = rest.length + 1 + 1 from rfl,
      List.range_succ_eq_map, List.map_cons, List.map_map]
    refine List.cons_eq_cons.mpr ⟨?_, ?_⟩
    · simp only [OpsNode.mk.injEq, sum_take_zero]
      and_intros <;> first | rfl | ring | omega
    · refine List.map_congr_left fun i _ => ?_
      simp only [Function.comp_apply, Nat.succ_eq_add_one, sum_take_cons,
        OpsNode.mk.injEq]
      and_intros <;> first | rfl | ring | omega

lemma cum_heights_from_eq (l : List ℚ) : ∀ acc : ℚ,
    cum_heights_from acc l =
      (List.range l.length).map (fun k => acc + sum_take l (k + 1)) := by
  induction l with
  | nil => intro acc; simp [cum_heights_from]
  | cons h t ih =>
    intro acc
    rw [cum_heights_from, ih (acc + h)]
    rw [show (h :: t).length = t.length + 1 from rfl, List.range_succ_eq_map,
      List.map_cons, List.map_map]
    refine List.cons_eq_cons.mpr ⟨by simp [sum_take_cons, sum_take_zero], ?_⟩
    refine List.map_congr_left fun k _ => ?_
    simp only [Function.comp_apply, Nat.succ_eq_add_one, sum_take_cons]
    ring

lemma cum_heights_eq (l : List ℚ) :
    cum_heights l = (List.range (l.length + 1)).map (fun k => sum_take l k) := by
  rw [cum_heights, cum_heights_from_eq, List.range_succ_eq_map, List.map_cons,
    List.map_map]
  refine List.cons_eq_cons.mpr ⟨by simp [sum_take], ?_⟩
  refine List.map_congr_left fun k _ => ?_
  simp [Nat.succ_eq_add_one]

lemma opsNodesAux_range_map (spans : List ℚ) : ∀ (m : Nat) (f : Nat → ℚ) (nid : Nat),
    opsNodesAux spans nid ((List.range m).map f) =
      (List.range m).flatMap (fun j =>
        (List.range (spans.length + 1)).map (fun i =>
          ⟨nid + j * (spans.length + 1) + i, sum_take spans i, f j⟩)) := by
  intro m
  induction m with
  | zero => intro f nid; simp [opsNodesAux]
  | succ m ih =>
    intro f nid
    rw [List.range_succ_eq_map, List.map_cons, List.map_map, opsNodesAux,
      ih (f ∘ Nat.succ) (nid + (spans.length + 1)),
      List.flatMap_cons, List.flatMap_map, opsRow_eq]
    congr 1
    · refine List.map_congr_left fun i _ => ?_
      simp only [OpsNode.mk.injEq]
      and_intros <;> first | rfl | ring | omega
    · congr 1
      funext j
      refine List.map_congr_left fun i _ => ?_
      simp only [Function.comp_apply, Nat.succ_eq_add_one, OpsNode.mk.injEq]
      and_intros <;> first | rfl | ring | omega

lemma opsNodes_eq (spans heights : List ℚ) :
    opsNodes spans heights = nodeGrid spans heights := by
  rw [opsNodes, cum_heights_eq, opsNodesAux_range_map, nodeGrid]
  congr 1
  funext j
  refine List.map_congr_left fun i _ => ?_
  simp only [OpsNode.mk.injEq]
  and_intros <;> first | rfl | ring | omega

lemma opsColumnsAux_eq (npf : Nat) : ∀ (k floor eid : Nat),
    opsColumnsAux npf k floor eid =
      (List.range k).flatMap (fun t =>
        opsColRow npf (floor + t) (eid + t * npf)) := by
  intro k
  induction k with
  | zero => intro floor eid; simp [opsColumnsAux]
  | succ k ih =>
    intro floor eid
    rw [opsColumnsAux, ih (floor + 1) (eid + npf), List.range_succ_eq_map,
      List.flatMap_cons, List.flatMap_map]
    congr 1
    · rw [show floor + 0 = floor from rfl, show eid + 0 * npf = eid by ring]
    · congr 1
      funext t
      simp only [Function.comp_apply, Nat.succ_eq_add_one]
      rw [show floor + 1 + t = floor + (t + 1) by omega,
        show eid + npf + t * npf = eid + (t + 1) * npf by ring]

lemma opsColumns_eq (spans heights : List ℚ) :
    opsColumns spans heights = colGrid (spans.length + 1) heights.length := by
  rw [opsColumns, opsColumnsAux_eq, colGrid]
  congr 1
  funext t
  rw [opsColRow]
  refine List.map_congr_left fun i _ => ?_
  simp only [OpsElement.mk.injEq]
  and_intros <;> first | rfl | ring | omega

lemma opsBeamsAux_eq (npf bays : Nat) : ∀ (k floor eid : Nat),
    opsBeamsAux npf bays k floor eid =
      (List.range k).flatMap (fun t =>
        opsBeamRow npf bays (floor + t) (eid + t * bays)) := by
  intro k
  induction k with
  | zero => intro floor eid; simp [opsBeamsAux]
  | succ k ih =>
    intro floor eid
    rw [opsBeamsAux, ih (floor + 1) (eid + bays), List.range_succ_eq_map,
      List.flatMap_cons, List.flatMap_map]
    congr 1
    · rw [show floor + 0 = floor from rfl, show eid + 0 * bays = eid by ring]
    · congr 1
      funext t
      simp only [Function.comp_apply, Nat.succ_eq_add_one]
      rw [show floor + 1 + t = floor + (t + 1) by omega,
        show eid + bays + t * bays = eid + (t + 1) * bays by ring]

lemma opsBeams_eq (spans heights : List ℚ) :
    opsBeams spans heights =
      beamGrid (spans.length + 1) spans.length heights.length := by
  rw [opsBeams, opsBeamsAux_eq, beamGrid]
  congr 1
  funext t
  rw [opsBeamRow]
  refine List.map_congr_left fun i _ => ?_
  simp only [OpsElement.mk.injEq]
  and_intros <;> first | rfl | ring | omega

/-! ## Lookup lemmas -/

lemma find?_range_map_eq_some {α : Type _} (n : Nat) :
    ∀ (f : Nat → α) (p : α → Bool) (i : Nat), i < n →
      (∀ t, t < n → (p (f t) = true ↔ t = i)) →
      ((List.range n).map f).find? p = some (f i) := by
  induction n with
  | zero => intro f p i hi _; omega
  | succ n ih =>
    intro f p i hi hiff
    rw [List.range_succ_eq_map, List.map_cons, List.map_map]
    cases i with
    | zero =>
      exact List.find?_cons_of_pos _ ((hiff 0 (by omega)).mpr rfl)
    | succ i =>
      rw [List.find?_cons_of_neg]
      · refine ih (f ∘ Nat.succ) p i (by omega) fun t ht => ?_
        rw [Function.comp_apply, hiff (t + 1) (by omega)]
        omega
      · intro hp
        have := (hiff 0 (by omega)).mp hp
        omega

lemma find?_range_flatMap_eq_some {α : Type _} (n : Nat) :
    ∀ (g : Nat → List α) (p : α → Bool) (j : Nat) (a : α), j < n →
      (∀ t, t < n → t ≠ j → (g t).find? p = none) →
      (g j).find? p = some a →
      ((List.range n).flatMap g).find? p = some a := by
  induction n with
  | zero => intro g p j a hj _ _; omega
  | succ n ih =>
    intro g p j a hj hnone hsome
    rw [List.range_succ_eq_map, List.flatMap_cons, List.flatMap_map,
      List.find?_append]
    cases j with
    | zero => rw [hsome, Option.or_some]
    | succ j =>
      rw [hnone 0 (by omega) (by omega), Option.none_or]
      refine ih (g ∘ Nat.succ) p j a (by omega) (fun t ht htj => ?_) hsome
      exact hnone (t + 1) (by omega) (by omega)

lemma grid_id_inj {npf j i j2 i2 : Nat} (hi : i < npf) (hi2 : i2 < npf)
    (h : j * npf + i = j2 * npf + i2) : j = j2 ∧ i = i2 := by
  have hj : j = j2 := by
    rcases lt_trichotomy j j2 with hlt | heq | hgt
    · have h1 : (j + 1) * npf ≤ j2 * npf := Nat.mul_le_mul_right _ hlt
      rw [Nat.add_one_mul] at h1
      exfalso; linarith
    · exact heq
    · have h1 : (j2 + 1) * npf ≤ j * npf := Nat.mul_le_mul_right _ hgt
      rw [Nat.add_one_mul] at h1
      exfalso; linarith
  subst hj
  exact ⟨rfl, Nat.add_left_cancel h⟩

/-- Normal form of the node dictionary: one row per floor 0 .. len(heights),
the row of floor j starting at node id j*(len(spans)+1)+1. -/
lemma genRowsAux_eq (spans heights : List ℚ) : ∀ (k j nid : Nat),
    genRowsAux spans heights k j nid =
      (List.range k).flatMap (fun t =>
        genRow spans (j + t) (sum_take heights (j + t))
          (nid + t * (spans.length + 1))) := by
  intro k
  induction k with
  | zero => intro j nid; simp [genRowsAux]
  | succ k ih =>
    intro j nid
    rw [genRowsAux, ih (j + 1) (nid + (spans.length + 1)),
      List.range_succ_eq_map, List.flatMap_cons, List.flatMap_map]
    congr 1
    · rw [show j + 0 = j from rfl, show nid + 0 * (spans.length + 1) = nid by ring]
    · congr 1
      funext t
      simp only [Function.comp_apply, Nat.succ_eq_add_one]
      rw [show j + 1 + t = j + (t + 1) by omega,
        show nid + (spans.length + 1) + t * (spans.length + 1) =
          nid + (t + 1) * (spans.length + 1) by ring]

lemma genNodes_eq (spans heights : List ℚ) :
    genNodes spans heights =
      (List.range (heights.length + 1)).flatMap (fun j =>
        genRow spans j (sum_take heights j) (j * (spans.length + 1) + 1)) := by
  rw [genNodes, genRowsAux_eq, List.range_succ, List.flatMap_append,
    List.flatMap_singleton]
  congr 1
  · congr 1
    funext t
    rw [show (0 : Nat) + t = t by omega, show 1 + t * (spans.length + 1) =
      t * (spans.length + 1) + 1 by ring]
  · rw [sum_take_length]

lemma dict_lookup_genNodes (spans heights : List ℚ) (i j : Nat)
    (hi : i ≤ spans.length) (hj : j ≤ heights.length) :
    dict_lookup (genNodes spans heights) (i, j) =
      some ⟨j * (spans.length + 1) + i + 1, sum_take spans i, 0,
        sum_take heights j⟩ := by
  rw [dict_lookup, genNodes_eq]
  have hfind :
      ((List.range (heights.length + 1)).flatMap (fun j2 =>
        genRow spans j2 (sum_take heights j2)
          (j2 * (spans.length + 1) + 1))).find?
        (fun p => decide (p.1 = (i, j))) =
      some ((i, j), ⟨j * (spans.length + 1) + 1 + i, sum_take spans i, 0,
        sum_take heights j⟩) := by
    refine find?_range_flatMap_eq_some _ _ _ j _ (by omega) (fun t ht htj => ?_) ?_
    · rw [List.find?_eq_none]
      intro x hx
      rw [genRow] at hx
      rcases List.mem_map.mp hx with ⟨i2, _, rfl⟩
      simp only [decide_eq_true_eq]
      intro hkey
      exact htj (congrArg Prod.snd hkey)
    · rw [genRow]
      refine find?_range_map_eq_some _ _ _ i (by omega) fun t ht => ?_
      simp [Prod.mk.injEq]
  rw [hfind, show j * (spans.length + 1) + 1 + i
      = j * (spans.length + 1) + i + 1 by ring]
  rfl

lemma opsNodes_find (spans heights : List ℚ) (i j : Nat)
    (hi : i ≤ spans.length) (hj : j ≤ heights.length) :
    (opsNodes spans heights).find?
        (fun a => decide (a.id = j * (spans.length + 1) + i + 1)) =
      some ⟨j * (spans.length + 1) + i + 1, sum_take spans i,
        sum_take heights j⟩ := by
  rw [opsNodes_eq, nodeGrid]
  refine find?_range_flatMap_eq_some _ _ _ j _ (by omega) (fun t ht htj => ?_) ?_
  · rw [List.find?_eq_none]
    intro x hx
    rcases List.mem_map.mp hx with ⟨i2, hi2m, rfl⟩
    have hi2 : i2 < spans.length + 1 := List.mem_range.mp hi2m
    simp only [decide_eq_true_eq]
    intro hid
    have hcancel : t * (spans.length + 1) + i2 = j * (spans.length + 1) + i :=
      Nat.succ_injective hid
    exact htj (grid_id_inj hi2 (by omega) hcancel).1
  · refine find?_range_map_eq_some _ _ _ i (by omega) fun t ht => ?_
    simp only [decide_eq_true_eq]
    constructor
    · intro hid
      have hcancel : j * (spans.length + 1) + t = j * (spans.length + 1) + i :=
        Nat.succ_injective hid
      exact Nat.add_left_cancel hcancel
    · intro h
      rw [h]

/-! ## Normal forms of the generated element list -/

lemma flatMap_congr_mem {α β : Type _} (l : List α) (f g : α → List β)
    (h : ∀ a ∈ l, f a = g a) : l.flatMap f = l.flatMap g := by
  induction l with
  | nil => rfl
  | cons a t ih =>
    rw [List.flatMap_cons, List.flatMap_cons, h a (by simp),
      ih fun b hb => h b (by simp [hb])]

lemma length_flatMap_const {α : Type _} (L : Nat) (g : Nat → List α)
    (h : ∀ t, (g t).length = L) : ∀ n : Nat,
    ((List.range n).flatMap g).length = n * L := by
  intro n
  induction n with
  | zero => simp
  | succ n ih =>
    rw [List.range_succ, List.flatMap_append, List.flatMap_singleton,
      List.length_append, ih, h n, Nat.succ_mul]

lemma gen_elements_go_append (d : List ((Nat × Nat) × GenNode))
    (l2 : List (ElemKind × (Nat × Nat) × (Nat × Nat))) :
    ∀ (l1 : List (ElemKind × (Nat × Nat) × (Nat × Nat))) (eid : Nat),
    gen_elements_go d eid (l1 ++ l2) =
      gen_elements_go d eid l1 ++ gen_elements_go d (eid + l1.length) l2 := by
  intro l1
  induction l1 with
  | nil => intro eid; simp [gen_elements_go]
  | cons sp rest ih =>
    intro eid
    rw [List.cons_append, gen_elements_go, gen_elements_go, ih (eid + 1),
      List.cons_append, show eid + 1 + rest.length
        = eid + (sp :: rest).length by simp; omega]

lemma gen_elements_go_range_map (d : List ((Nat × Nat) × GenNode)) :
    ∀ (n : Nat) (f : Nat → ElemKind × (Nat × Nat) × (Nat × Nat)) (eid : Nat),
      gen_elements_go d eid ((List.range n).map f) =
        (List.range n).map (fun t => mk_gen_element d (eid + t) (f t)) := by
  intro n
  induction n with
  | zero => intro f eid; simp [gen_elements_go]
  | succ n ih =>
    intro f eid
    rw [List.range_succ_eq_map, List.map_cons, List.map_map, gen_elements_go,
      ih (f ∘ Nat.succ) (eid + 1), List.map_cons, List.map_map]
    refine List.cons_eq_cons.mpr ⟨rfl, ?_⟩
    refine List.map_congr_left fun t _ => ?_
    simp only [Function.comp_apply, Nat.succ_eq_add_one]
    rw [show eid + 1 + t = eid + (t + 1) by omega]

lemma gen_elements_go_range_flatMap (d : List ((Nat × Nat) × GenNode))
    (L : Nat) :
    ∀ (n : Nat) (g : Nat → List (ElemKind × (Nat × Nat) × (Nat × Nat)))
      (eid : Nat), (∀ t, (g t).length = L) →
      gen_elements_go d eid ((List.range n).flatMap g) =
        (List.range n).flatMap (fun t =>
          gen_elements_go d (eid + t * L) (g t)) := by
  intro n
  induction n with
  | zero => intro g eid _; simp [gen_elements_go]
  | succ n ih =>
    intro g eid hg
    rw [List.range_succ_eq_map, List.flatMap_cons, List.flatMap_cons,
      List.flatMap_map, List.flatMap_map, gen_elements_go_append,
      ih (fun a => g a.succ) (eid + (g 0).length) fun t => hg _, hg 0]
    congr 1
    · rw [show eid + 0 * L = eid by ring]
    · refine flatMap_congr_mem _ _ _ fun t _ => ?_
      simp only [Function.comp_apply, Nat.succ_eq_add_one]
      rw [show eid + L + t * L = eid + (t + 1) * L by ring]

lemma genColumnSpecs_length (spans heights : List ℚ) :
    (genColumnSpecs spans heights).length =
      heights.length * (spans.length + 1) := by
  rw [genColumnSpecs]
  exact length_flatMap_const _ _ (fun t => by simp) _

lemma genBeamSpecs_length (spans heights : List ℚ) :
    (genBeamSpecs spans heights).length = heights.length * spans.length := by
  rw [genBeamSpecs]
  exact length_flatMap_const _ _ (fun t => by simp) _

lemma genElements_eq (spans heights : List ℚ) :
    genElements spans heights =
      genColGrid spans heights ++ genBeamGrid spans heights := by
  rw [genElements, gen_elements_go_append, genColumnSpecs_length]
  congr 1
  · rw [genColumnSpecs,
      gen_elements_go_range_flatMap _ (spans.length + 1) _ _ _
        (fun t => by simp), genColGrid]
    refine flatMap_congr_mem _ _ _ fun j hj => ?_
    have hjH : j < heights.length := List.mem_range.mp hj
    rw [gen_elements_go_range_map]
    refine List.map_congr_left fun i hi => ?_
    have hiN : i < spans.length + 1 := List.mem_range.mp hi
    rw [mk_gen_element]
    simp only
    rw [dict_lookup_genNodes spans heights i j (by omega) (by omega),
      dict_lookup_genNodes spans heights i (j + 1) (by omega) (by omega)]
    simp only [Option.getD_some, GenElement.mk.injEq]
    and_intros <;> first | rfl | ring | omega
  · rw [genBeamSpecs,
      gen_elements_go_range_flatMap _ spans.length _ _ _
        (fun t => by simp), genBeamGrid]
    refine flatMap_congr_mem _ _ _ fun jm hjm => ?_
    have hjH : jm < heights.length := List.mem_range.mp hjm
    rw [gen_elements_go_range_map]
    refine List.map_congr_left fun i hi => ?_
    have hiN : i < spans.length := List.mem_range.mp hi
    rw [mk_gen_element]
    simp only
    rw [dict_lookup_genNodes spans heights i (jm + 1) (by omega) (by omega),
      dict_lookup_genNodes spans heights (i + 1) (jm + 1) (by omega) (by omega)]
    simp only [Option.getD_some, GenElement.mk.injEq]
    and_intros <;> first | rfl | ring | omega

lemma genSupports_eq (spans heights : List ℚ) :
    genSupports spans heights =
      (List.range (spans.length + 1)).map (fun i => i + 1) := by
  rw [genSupports]
  refine List.map_congr_left fun i hi => ?_
  have hiN : i < spans.length + 1 := List.mem_range.mp hi
  rw [dict_lookup_genNodes spans heights i 0 (by omega) (by omega)]
  simp

/-! ## Projections, lengths and id ranges -/

lemma grid_ids (L : Nat) : ∀ (n base : Nat),
    (List.range n).flatMap (fun j =>
      (List.range L).map (fun i => base + (j * L + i))) =
      (List.range (n * L)).map (fun k => base + k) := by
  intro n
  induction n with
  | zero => intro base; simp
  | succ n ih =>
    intro base
    rw [List.range_succ, List.flatMap_append, List.flatMap_singleton, ih,
      Nat.succ_mul, List.range_add, List.map_append, List.map_map]
    congr 1

lemma flatMap_const_replicate {α : Type _} (L : Nat) (a : α) : ∀ n : Nat,
    (List.range n).flatMap (fun _ => List.replicate L a) =
      List.replicate (n * L) a := by
  intro n
  induction n with
  | zero => simp
  | succ n ih =>
    rw [List.range_succ, List.flatMap_append, List.flatMap_singleton, ih,
      Nat.succ_mul, List.replicate_add]

lemma genNodes_proj (spans heights : List ℚ) :
    (genNodes spans heights).map (fun p => OpsNode.mk p.2.id p.2.x p.2.z) =
      nodeGrid spans heights := by
  rw [genNodes_eq, List.map_flatMap, nodeGrid]
  refine flatMap_congr_mem _ _ _ fun j _ => ?_
  rw [genRow, List.map_map]
  refine List.map_congr_left fun i _ => ?_
  simp only [Function.comp_apply, OpsNode.mk.injEq]
  and_intros <;> first | rfl | ring | omega

lemma genColGrid_proj (spans heights : List ℚ) :
    (genColGrid spans heights).map
        (fun e => OpsElement.mk e.id e.startN e.endN) =
      colGrid (spans.length + 1) heights.length := by
  rw [genColGrid, List.map_flatMap, colGrid]
  refine flatMap_congr_mem _ _ _ fun j _ => ?_
  rw [List.map_map]
  rfl

lemma genBeamGrid_proj (spans heights : List ℚ) :
    (genBeamGrid spans heights).map
        (fun e => OpsElement.mk e.id e.startN e.endN) =
      beamGrid (spans.length + 1) spans.length heights.length := by
  rw [genBeamGrid, List.map_flatMap, beamGrid]
  refine flatMap_congr_mem _ _ _ fun jm _ => ?_
  rw [List.map_map]
  rfl

lemma genColGrid_kinds (spans heights : List ℚ) :
    (genColGrid spans heights).map (fun e => e.kind) =
      List.replicate (heights.length * (spans.length + 1)) ElemKind.column := by
  rw [genColGrid, List.map_flatMap,
    ← flatMap_const_replicate (spans.length + 1) ElemKind.column]
  refine flatMap_congr_mem _ _ _ fun j _ => ?_
  rw [List.map_map]
  rw [show (List.replicate (spans.length + 1) ElemKind.column)
      = (List.range (spans.length + 1)).map
          (Function.const Nat ElemKind.column) by
    rw [List.map_const, List.length_range]]
  rfl

lemma genBeamGrid_kinds (spans heights : List ℚ) :
    (genBeamGrid spans heights).map (fun e => e.kind) =
      List.replicate (heights.length * spans.length) ElemKind.beam := by
  rw [genBeamGrid, List.map_flatMap,
    ← flatMap_const_replicate spans.length ElemKind.beam]
  refine flatMap_congr_mem _ _ _ fun jm _ => ?_
  rw [List.map_map]
  rw [show (List.replicate spans.length ElemKind.beam)
      = (List.range spans.length).map (Function.const Nat ElemKind.beam) by
    rw [List.map_const, List.length_range]]
  rfl

lemma opsNodes_length (spans heights : List ℚ) :
    (opsNodes spans heights).length =
      (spans.length + 1) * (heights.length + 1) := by
  rw [opsNodes_eq, nodeGrid,
    length_flatMap_const (spans.length + 1) _ (fun t => by simp) _]
  ring

lemma opsColumns_length (spans heights : List ℚ) :
    (opsColumns spans heights).length =
      heights.length * (spans.length + 1) := by
  rw [opsColumns_eq, colGrid,
    length_flatMap_const (spans.length + 1) _ (fun t => by simp) _]

lemma opsBeams_length (spans heights : List ℚ) :
    (opsBeams spans heights).length = heights.length * spans.length := by
  rw [opsBeams_eq, beamGrid,
    length_flatMap_const spans.length _ (fun t => by simp) _]

lemma nodeGrid_ids (spans heights : List ℚ) :
    (nodeGrid spans heights).map (fun a => a.id) =
      (List.range ((spans.length + 1) * (heights.length + 1))).map
        (fun k => k + 1) := by
  have h2 : (List.range ((spans.length + 1) * (heights.length + 1))).map
        (fun k => k + 1)
      = (List.range ((heights.length + 1) * (spans.length + 1))).map
        (fun k => 1 + k) := by
    rw [Nat.mul_comm]
    exact List.map_congr_left fun k _ => by omega
  rw [nodeGrid, List.map_flatMap, h2, ← grid_ids]
  refine flatMap_congr_mem _ _ _ fun j _ => ?_
  rw [List.map_map]
  refine List.map_congr_left fun i _ => ?_
  simp only [Function.comp_apply]
  omega

lemma colGrid_ids (npf floors : Nat) :
    (colGrid npf floors).map (fun a => a.id) =
      (List.range (floors * npf)).map (fun k => k + 1) := by
  have h2 : (List.range (floors * npf)).map (fun k => k + 1)
      = (List.range (floors * npf)).map (fun k => 1 + k) :=
    List.map_congr_left fun k _ => by omega
  rw [colGrid, List.map_flatMap, h2, ← grid_ids]
  refine flatMap_congr_mem _ _ _ fun j _ => ?_
  rw [List.map_map]
  refine List.map_congr_left fun i _ => ?_
  simp only [Function.comp_apply]
  omega

lemma beamGrid_ids (npf bays floors : Nat) :
    (beamGrid npf bays floors).map (fun a => a.id) =
      (List.range (floors * bays)).map (fun k => floors * npf + k + 1) := by
  have h2 : (List.range (floors * bays)).map (fun k => floors * npf + k + 1)
      = (List.range (floors * bays)).map (fun k => (floors * npf + 1) + k) :=
    List.map_congr_left fun k _ => by omega
  rw [beamGrid, List.map_flatMap, h2, ← grid_ids]
  refine flatMap_congr_mem _ _ _ fun jm _ => ?_
  rw [List.map_map]
  refine List.map_congr_left fun i _ => ?_
  simp only [Function.comp_apply]
  omega

/-! ## Column geometry lemmas for the self-weight loads -/

lemma mem_colGrid {npf floors : Nat} {c : OpsElement}
    (hc : c ∈ colGrid npf floors) :
    ∃ j i, j < floors ∧ i < npf ∧
      c = ⟨j * npf + i + 1, j * npf + i + 1, (j + 1) * npf + i + 1⟩ := by
  rcases List.mem_flatMap.mp hc with ⟨j, hj, hcj⟩
  rcases List.mem_map.mp hcj with ⟨i, hi, rfl⟩
  exact ⟨j, i, List.mem_range.mp hj, List.mem_range.mp hi, rfl⟩

lemma mem_beamGrid {npf bays floors : Nat} {b : OpsElement}
    (hb : b ∈ beamGrid npf bays floors) :
    ∃ jm i, jm < floors ∧ i < bays ∧
      b = ⟨floors * npf + jm * bays + i + 1,
        (jm + 1) * npf + i + 1, (jm + 1) * npf + i + 2⟩ := by
  rcases List.mem_flatMap.mp hb with ⟨jm, hjm, hbj⟩
  rcases List.mem_map.mp hbj with ⟨i, hi, rfl⟩
  exact ⟨jm, i, List.mem_range.mp hjm, List.mem_range.mp hi, rfl⟩

lemma element_length_column (spans heights : List ℚ)
    (hh : ∀ h ∈ heights, (0 : ℚ) ≤ h) (j i : Nat)
    (hj : j < heights.length) (hi : i < spans.length + 1) :
    element_length (opsNodes spans heights)
        ⟨j * (spans.length + 1) + i + 1, j * (spans.length + 1) + i + 1,
          (j + 1) * (spans.length + 1) + i + 1⟩ =
      ((heights.getD j 0 : ℚ) : ℝ) := by
  rw [element_length]
  dsimp only
  rw [opsNodes_find spans heights i j (by omega) (by omega),
    opsNodes_find spans heights i (j + 1) (by omega) (by omega)]
  simp only [Option.getD_some]
  have hz : sum_take heights (j + 1) = sum_take heights j + heights.getD j 0 := by
    rw [List.getD_eq_getElem heights 0 hj, sum_take, sum_take]
    exact List.sum_take_succ heights j hj
  have hh0 : (0 : ℚ) ≤ heights.getD j 0 := by
    rw [List.getD_eq_getElem heights 0 hj]
    exact hh _ (List.getElem_mem hj)
  rw [hz]
  have heq : ((sum_take spans i : ℚ) : ℝ) - ((sum_take spans i : ℚ) : ℝ) = 0 :=
    sub_self _
  rw [heq]
  have heq2 : ((sum_take heights j + heights.getD j 0 : ℚ) : ℝ) -
      ((sum_take heights j : ℚ) : ℝ) = ((heights.getD j 0 : ℚ) : ℝ) := by
    push_cast
    ring
  rw [heq2, show (0 : ℝ) ^ 2 + ((heights.getD j 0 : ℚ) : ℝ) ^ 2
    = ((heights.getD j 0 : ℚ) : ℝ) ^ 2 by ring]
  exact Real.sqrt_sq (by exact_mod_cast hh0)

/-! ## Stability-factor analysis -/

lemma alpha_dict_pos {c : String} {alpha : ℝ} (h : alpha_dict c = some alpha) :
    0 < alpha := by
  rw [alpha_dict] at h
  split_ifs at h
  all_goals first
    | (injection h with h2; rw [← h2]; norm_num)
    | exact absurd h (by simp)

lemma phi_disc_pos {alpha u : ℝ} (ha : 0 < alpha) (hu : 0.215 < u) :
    0 < (0.5 * (1 + alpha * (u - 0.215) + u ^ 2)) ^ 2 - u ^ 2 := by
  have hue : (0 : ℝ) < u - 0.215 := by linarith
  have h1 : 0 < 0.5 * (1 + alpha * (u - 0.215) + u ^ 2) - u := by
    nlinarith [sq_nonneg (u - 1), mul_pos ha hue]
  have h2 : 0 < 0.5 * (1 + alpha * (u - 0.215) + u ^ 2) + u := by
    nlinarith [sq_nonneg u, mul_pos ha hue]
  nlinarith [mul_pos h1 h2]

lemma phiDenom_ge_one {alpha u : ℝ} (ha : 0 < alpha) (hu : 0.215 < u) :
    1 ≤ phiDenom alpha u := by
  rw [phiDenom]
  set p := 0.5 * (1 + alpha * (u - 0.215) + u ^ 2) with hp
  set s := Real.sqrt (p ^ 2 - u ^ 2) with hs
  have hdisc : 0 < p ^ 2 - u ^ 2 := phi_disc_pos ha hu
  have hs0 : 0 ≤ s := Real.sqrt_nonneg _
  have hq : s ^ 2 = p ^ 2 - u ^ 2 := Real.sq_sqrt hdisc.le
  have h2p : 1 + u ^ 2 ≤ 2 * p := by
    rw [hp]
    nlinarith [mul_pos ha (show (0 : ℝ) < u - 0.215 by linarith)]
  by_cases hple : 1 ≤ p
  · linarith
  · push_neg at hple
    have h1p : 0 < 1 - p := by linarith
    have hsq : (1 - p) ^ 2 ≤ s ^ 2 := by
      rw [hq]; nlinarith
    have hs1p : 0 < s + (1 - p) := by linarith
    nlinarith [hsq, hs1p]

lemma phiDenom_mono {alpha u1 u2 : ℝ} (ha : 0 < alpha) (h1 : 0.215 < u1)
    (h12 : u1 ≤ u2) : phiDenom alpha u1 ≤ phiDenom alpha u2 := by
  have h2 : 0.215 < u2 := lt_of_lt_of_le h1 h12
  have hge1 := phiDenom_ge_one ha h1
  have hge2 := phiDenom_ge_one ha h2
  simp only [phiDenom] at hge1 hge2 ⊢
  set p1 := 0.5 * (1 + alpha * (u1 - 0.215) + u1 ^ 2) with hp1
  set p2 := 0.5 * (1 + alpha * (u2 - 0.215) + u2 ^ 2) with hp2
  set s1 := Real.sqrt (p1 ^ 2 - u1 ^ 2) with hs1
  set s2 := Real.sqrt (p2 ^ 2 - u2 ^ 2) with hs2
  have hd1 : 0 < p1 ^ 2 - u1 ^ 2 := phi_disc_pos ha h1
  have hd2 : 0 < p2 ^ 2 - u2 ^ 2 := phi_disc_pos ha h2
  have hs1p : 0 < s1 := Real.sqrt_pos.mpr hd1
  have hs2p : 0 < s2 := Real.sqrt_pos.mpr hd2
  have hq1 : s1 ^ 2 = p1 ^ 2 - u1 ^ 2 := Real.sq_sqrt hd1.le
  have hq2 : s2 ^ 2 = p2 ^ 2 - u2 ^ 2 := Real.sq_sqrt hd2.le
  have key : 0 ≤ ((p2 + s2) - (p1 + s1)) * (s1 + s2) := by
    have hexp : ((p2 + s2) - (p1 + s1)) * (s1 + s2)
        = (p2 - p1) * ((p1 + s1) + (p2 + s2)) - (u2 ^ 2 - u1 ^ 2) := by
      linear_combination hq2 - hq1
    rw [hexp]
    have hp21 : p2 - p1 = (u2 - u1) * (alpha + u1 + u2) / 2 := by
      rw [hp1, hp2]; ring
    have hD : 0 ≤ u2 - u1 := sub_nonneg.mpr h12
    have hA : 0 ≤ alpha + u1 + u2 := by linarith
    have hS : 0 ≤ (p1 + s1) + (p2 + s2) - 2 := by linarith
    nlinarith [mul_nonneg (mul_nonneg hD hA) hS, mul_nonneg hD ha.le, hp21]
  have := (mul_nonneg_iff_of_pos_right (by linarith : (0 : ℝ) < s1 + s2)).mp key
  linarith

/-- Evaluation of phi_gb50017 in its main (post-plateau) branch: the
discriminant is provably nonnegative, so the result is the ok value
min(1/(phi_prime + sqrt(disc)), 1). -/
lemma phi_eval {lam : ℝ} {c : String} {alpha fy E : ℝ}
    (hα : alpha_dict c = some alpha) (hlam : 0 < lam)
    (hbar : 0.215 < (lam / Real.pi) * Real.sqrt (fy / E)) :
    phi_gb50017 lam c fy E =
      Except.ok
        (min (1 / phiDenom alpha ((lam / Real.pi) * Real.sqrt (fy / E))) 1) := by
  rw [phi_gb50017, if_neg (by linarith)]
  simp only [hα]
  rw [if_neg (not_le.mpr hbar)]
  have hdisc := phi_disc_pos (alpha_dict_pos hα) hbar
  rw [if_neg (not_lt.mpr hdisc.le), phiDenom]

lemma phi_ok_le_one (lam : ℝ) (c : String) (fy E : ℝ) (r : ℝ)
    (h : phi_gb50017 lam c fy E = Except.ok r) : r ≤ 1 := by
  rw [phi_gb50017] at h
  by_cases h1 : lam ≤ 0
  · rw [if_pos h1] at h
    injection h with h2
    rw [← h2]
  · rw [if_neg h1] at h
    rcases halpha : alpha_dict c with _ | alpha
    · simp only [halpha] at h
      exact Except.noConfusion h
    · simp only [halpha] at h
      split_ifs at h
      all_goals first
        | exact Except.noConfusion h
        | (injection h with h2; rw [← h2]; try simp)

lemma genNodes_length (spans heights : List ℚ) :
    (genNodes spans heights).length =
      (heights.length + 1) * (spans.length + 1) := by
  rw [genNodes_eq]
  exact length_flatMap_const _ _ (fun t => by simp [genRow]) _

lemma genElements_length (spans heights : List ℚ) :
    (genElements spans heights).length =
      heights.length * (spans.length + 1) + heights.length * spans.length := by
  rw [genElements_eq, List.length_append]
  congr 1
  · rw [genColGrid]
    exact length_flatMap_const _ _ (fun t => by simp) _
  · rw [genBeamGrid]
    exact length_flatMap_const _ _ (fun t => by simp) _

lemma alpha_dict_b : alpha_dict "b" = some 0.34 := by
  rw [alpha_dict, if_neg (by decide), if_pos rfl]

lemma alpha_dict_x : alpha_dict "x" = none := by
  rw [alpha_dict, if_neg (by decide), if_neg (by decide), if_neg (by decide),
    if_neg (by decide)]

/-! ## Claims -/

/-- C1: For every slenderness, section class in the alpha table and positive
fy, E, the stability factor phi_gb50017 returns 1 when lambda ≤ 0; with
lambda_bar = (lambda/pi)*sqrt(fy/E) it returns 1 when lambda_bar ≤ 0.215,
and otherwise min(1, 1/(phi_prime + sqrt(phi_prime^2 - lambda_bar^2))) with
phi_prime = 0.5*(1 + alpha*(lambda_bar - 0.215) + lambda_bar^2); over exact
reals the discriminant is nonnegative in that branch, so the 1e-10 noise
clamp and the InvalidSlenderness error of the source (mirrored in the
definition of phi_gb50017) are never triggered. -/
theorem C1_phi_stability_factor (lam : ℝ) (c : String) (alpha fy E : ℝ)
    (hα : alpha_dict c = some alpha) (hfy : 0 < fy) (hE : 0 < E) :
    PhiPiecewiseClaim lam c alpha fy E := by
  have hconst : ∀ h0 : ¬lam ≤ 0,
      ¬((lam / Real.pi) * Real.sqrt (fy / E) ≤ 0.215) →
      phi_gb50017 lam c fy E =
        Except.ok (min (1 /
          phiDenom alpha ((lam / Real.pi) * Real.sqrt (fy / E))) 1) :=
    fun h0 hu => phi_eval hα (not_le.mp h0) (not_le.mp hu)
  refine ⟨?_, ?_, ?_, ?_⟩
  · intro h
    rw [phi_gb50017, if_pos h]
  · intro hpos hle
    rw [phi_gb50017, if_neg (not_le.mpr hpos)]
    simp only [hα]
    rw [if_pos hle]
  · intro hpos hgt
    refine ⟨(phi_disc_pos (alpha_dict_pos hα) hgt).le, ?_⟩
    rw [phi_eval hα hpos hgt, phiDenom, min_comm]
  · by_cases h0 : lam ≤ 0
    · rw [phi_gb50017, if_pos h0]
      exact fun hcon => Except.noConfusion hcon
    · by_cases hu : (lam / Real.pi) * Real.sqrt (fy / E) ≤ 0.215
      · rw [phi_gb50017, if_neg h0]
        simp only [hα]
        rw [if_pos hu]
        exact fun hcon => Except.noConfusion hcon
      · rw [hconst h0 hu]
        exact fun hcon => Except.noConfusion hcon

/-- Witness for C1 at lambda = 100, class b, fy = 235, E = 235. -/
theorem C1_phi_stability_factor_witness :
    alpha_dict "b" = some 0.34 ∧ (0 : ℝ) < 235 ∧
      PhiPiecewiseClaim 100 "b" 0.34 235 235 :=
  ⟨alpha_dict_b, by norm_num,
    C1_phi_stability_factor 100 "b" 0.34 235 235
      alpha_dict_b (by norm_num) (by norm_num)⟩

/-- C7: for every section class of the table and positive fy, E, the
stability factor equals 1 at lambda = 0, every returned value is at most 1,
and on the region where the normalized slenderness exceeds 0.215 the
returned value is non-increasing in lambda. -/
theorem C7_phi_bounds_and_monotone (c : String)
    (alpha fy E lam r lam1 lam2 r1 r2 : ℝ)
    (hα : alpha_dict c = some alpha) (hfy : 0 < fy) (hE : 0 < E) :
    phi_gb50017 0 c fy E = Except.ok 1 ∧
    (phi_gb50017 lam c fy E = Except.ok r → r ≤ 1) ∧
    (lam1 ≤ lam2 → 0.215 < (lam1 / Real.pi) * Real.sqrt (fy / E) →
      phi_gb50017 lam1 c fy E = Except.ok r1 →
      phi_gb50017 lam2 c fy E = Except.ok r2 → r2 ≤ r1) := by
  refine ⟨?_, phi_ok_le_one lam c fy E r, ?_⟩
  · rw [phi_gb50017, if_pos le_rfl]
  · intro h12 hu1 hr1 hr2
    have ha := alpha_dict_pos hα
    have hs : 0 ≤ Real.sqrt (fy / E) := Real.sqrt_nonneg _
    have hl1 : 0 < lam1 := by
      by_contra hc
      push_neg at hc
      have hdiv : lam1 / Real.pi ≤ 0 :=
        div_nonpos_of_nonpos_of_nonneg hc Real.pi_pos.le
      nlinarith [mul_nonpos_of_nonpos_of_nonneg hdiv hs]
    have hl2 : 0 < lam2 := lt_of_lt_of_le hl1 h12
    have hu12 : (lam1 / Real.pi) * Real.sqrt (fy / E) ≤
        (lam2 / Real.pi) * Real.sqrt (fy / E) := by
      have hpi : lam1 / Real.pi ≤ lam2 / Real.pi := by gcongr
      exact mul_le_mul_of_nonneg_right hpi hs
    have hu2 : 0.215 < (lam2 / Real.pi) * Real.sqrt (fy / E) :=
      lt_of_lt_of_le hu1 hu12
    rw [phi_eval hα hl1 hu1] at hr1
    rw [phi_eval hα hl2 hu2] at hr2
    injection hr1 with e1
    injection hr2 with e2
    have hd1 := phiDenom_ge_one ha hu1
    have hd2 := phiDenom_ge_one ha hu2
    have hmono := phiDenom_mono ha hu1 hu12
    rw [← e1, ← e2]
    exact min_le_min (one_div_le_one_div_of_le (by linarith) hmono) le_rfl

/-- Witness for C7 at class b, fy = E = 235, with the plateau value at
lambda = -1 and the monotone pair lambda = 10 ≤ 20. -/
theorem C7_phi_bounds_and_monotone_witness :
    alpha_dict "b" = some 0.34 ∧ (0 : ℝ) < 235 ∧
    (phi_gb50017 0 "b" 235 235 = Except.ok 1 ∧
      (phi_gb50017 (-1) "b" 235 235 = Except.ok 1 → (1 : ℝ) ≤ 1) ∧
      ((10 : ℝ) ≤ 20 →
        0.215 < ((10 : ℝ) / Real.pi) * Real.sqrt (235 / 235) →
        phi_gb50017 10 "b" 235 235 = Except.ok
          (min (1 / phiDenom 0.34 (((10 : ℝ) / Real.pi) *
            Real.sqrt (235 / 235))) 1) →
        phi_gb50017 20 "b" 235 235 = Except.ok
          (min (1 / phiDenom 0.34 (((20 : ℝ) / Real.pi) *
            Real.sqrt (235 / 235))) 1) →
        min (1 / phiDenom 0.34 (((20 : ℝ) / Real.pi) *
            Real.sqrt (235 / 235))) 1 ≤
          min (1 / phiDenom 0.34 (((10 : ℝ) / Real.pi) *
            Real.sqrt (235 / 235))) 1)) :=
  ⟨alpha_dict_b, by norm_num,
    C7_phi_bounds_and_monotone "b" 0.34 235 235 (-1) 1 10 20
      (min (1 / phiDenom 0.34 (((10 : ℝ) / Real.pi) * Real.sqrt (235 / 235))) 1)
      (min (1 / phiDenom 0.34 (((20 : ℝ) / Real.pi) * Real.sqrt (235 / 235))) 1)
      alpha_dict_b (by norm_num) (by norm_num)⟩

/-- C10: the class-table validation happens only after the lambda ≤ 0 early
return: an unknown section class still yields 1 for every lambda ≤ 0, while
every lambda > 0 produces the invalid-class error, whatever the value of the
normalized slenderness. -/
theorem C10_class_check_after_early_return (c : String) (lam1 lam2 fy E : ℝ)
    (hc : alpha_dict c = none) :
    (lam1 ≤ 0 → phi_gb50017 lam1 c fy E = Except.ok 1) ∧
    (0 < lam2 → phi_gb50017 lam2 c fy E =
      Except.error PhiError.invalidClass) := by
  constructor
  · intro h
    rw [phi_gb50017, if_pos h]
  · intro h
    rw [phi_gb50017, if_neg (not_le.mpr h)]
    simp only [hc]

/-- Witness for C10 with the unknown class x, lambda = -2 and lambda = 5. -/
theorem C10_class_check_after_early_return_witness :
    alpha_dict "x" = none ∧
    (((-2 : ℝ) ≤ 0 → phi_gb50017 (-2) "x" 235 2.06e5 = Except.ok 1) ∧
      ((0 : ℝ) < 5 → phi_gb50017 5 "x" 235 2.06e5 =
        Except.error PhiError.invalidClass)) :=
  ⟨alpha_dict_x,
    C10_class_check_after_early_return "x" (-2) 5 235 2.06e5 alpha_dict_x⟩

/-- C3: for at least one bay and one floor, the solver model builder creates
exactly (bays+1)*(floors+1) nodes numbered 1.. in generation order,
floors*(bays+1) column elements numbered from 1, and floors*bays beam
elements numbered contiguously after the columns. -/
theorem C3_topology_counts_and_numbering (spans heights : List ℚ)
    (hs : spans ≠ []) (hh : heights ≠ []) :
    (opsNodes spans heights).length =
      (spans.length + 1) * (heights.length + 1) ∧
    (opsNodes spans heights).map (fun a => a.id) =
      (List.range ((spans.length + 1) * (heights.length + 1))).map
        (fun k => k + 1) ∧
    (opsColumns spans heights).length = heights.length * (spans.length + 1) ∧
    (opsBeams spans heights).length = heights.length * spans.length ∧
    (opsColumns spans heights).map (fun a => a.id) =
      (List.range (heights.length * (spans.length + 1))).map (fun k => k + 1) ∧
    (opsBeams spans heights).map (fun a => a.id) =
      (List.range (heights.length * spans.length)).map
        (fun k => heights.length * (spans.length + 1) + k + 1) := by
  refine ⟨opsNodes_length spans heights, ?_, opsColumns_length spans heights,
    opsBeams_length spans heights, ?_, ?_⟩
  · rw [opsNodes_eq]
    exact nodeGrid_ids spans heights
  · rw [opsColumns_eq]
    exact colGrid_ids (spans.length + 1) heights.length
  · rw [opsBeams_eq]
    exact beamGrid_ids (spans.length + 1) spans.length heights.length

/-- Witness for C3 on the spec scenario spans = [6, 9], heights = [4, 3]:
9 nodes, columns numbered 1-6, beams numbered 7-10. -/
theorem C3_topology_counts_and_numbering_witness :
    ([6, 9] : List ℚ) ≠ [] ∧ ([4, 3] : List ℚ) ≠ [] ∧
    (opsNodes [6, 9] [4, 3]).length = 9 ∧
    (opsColumns [6, 9] [4, 3]).map (fun a => a.id) = [1, 2, 3, 4, 5, 6] ∧
    (opsBeams [6, 9] [4, 3]).map (fun a => a.id) = [7, 8, 9, 10] ∧
    (opsColumns [6, 9] [4, 3]).length + (opsBeams [6, 9] [4, 3]).length = 10 :=
  ⟨by decide, by decide,
    (C3_topology_counts_and_numbering [6, 9] [4, 3] (by decide) (by decide)).1,
    by decide, by decide, by decide⟩

/-- C9: for nonempty spans and heights lists, the preview generator
generate_model_data and the solver model builder produce the same topology:
identical node ids and planar coordinates in the same order, identical
elements (columns first, beams after, same ids and endpoint node ids), and
the same ground-floor support ids. -/
theorem C9_generator_equivalence (spans heights : List ℚ)
    (hs : spans ≠ []) (hh : heights ≠ []) :
    opsNodes spans heights =
      (genNodes spans heights).map (fun p => OpsNode.mk p.2.id p.2.x p.2.z) ∧
    (genElements spans heights).map
        (fun e => OpsElement.mk e.id e.startN e.endN) =
      opsColumns spans heights ++ opsBeams spans heights ∧
    (genElements spans heights).map (fun e => e.kind) =
      List.replicate (heights.length * (spans.length + 1)) ElemKind.column ++
        List.replicate (heights.length * spans.length) ElemKind.beam ∧
    genSupports spans heights = opsSupports spans := by
  refine ⟨?_, ?_, ?_, ?_⟩
  · rw [opsNodes_eq, genNodes_proj]
  · rw [genElements_eq, List.map_append, genColGrid_proj, genBeamGrid_proj,
      opsColumns_eq, opsBeams_eq]
  · rw [genElements_eq, List.map_append, genColGrid_kinds, genBeamGrid_kinds]
  · rw [genSupports_eq, opsSupports]

/-- Witness for C9 at spans = [6, 9], heights = [4, 3]. -/
theorem C9_generator_equivalence_witness :
    ([6, 9] : List ℚ) ≠ [] ∧ ([4, 3] : List ℚ) ≠ [] ∧
    (opsNodes [6, 9] [4, 3] =
      (genNodes [6, 9] [4, 3]).map (fun p => OpsNode.mk p.2.id p.2.x p.2.z) ∧
    (genElements [6, 9] [4, 3]).map
        (fun e => OpsElement.mk e.id e.startN e.endN) =
      opsColumns [6, 9] [4, 3] ++ opsBeams [6, 9] [4, 3] ∧
    (genElements [6, 9] [4, 3]).map (fun e => e.kind) =
      List.replicate 6 ElemKind.column ++ List.replicate 4 ElemKind.beam ∧
    genSupports [6, 9] [4, 3] = opsSupports [6, 9]) :=
  ⟨by decide, by decide,
    C9_generator_equivalence [6, 9] [4, 3] (by decide) (by decide)⟩

/-- C4 counterexample: topology generation does not reject degenerate
inputs.  With zero bays it still produces 2 nodes and one column element
(for one floor), and with zero floors it still produces a row of 3 ground
nodes and no elements; no error of any kind is raised. -/
theorem C4_counterexample_no_invalid_topology_error :
    (genNodes [] [4]).length = 2 ∧
    (genElements [] [4]).map (fun e => (e.id, e.kind, e.startN, e.endN)) =
      [(1, ElemKind.column, 1, 2)] ∧
    (genNodes [6, 9] []).length = 3 ∧
    genElements [6, 9] [] = [] ∧
    (opsNodes [] [4]).length = 2 ∧
    (opsColumns [] [4]).map (fun e => (e.id, e.startNode, e.endNode)) =
      [(1, 1, 2)] ∧
    opsBeams [] [4] = [] := by
  decide

/-- C4 amended: neither topology generator validates its input; zero bays
yields a single vertical line of floors+1 nodes with one column per floor
and no beams, and zero floors yields one row of bays+1 ground nodes with no
elements at all (an empty heights list is only caught by the analysis
driver of the UI, which shows an error message before building the model;
no InvalidTopology error exists in the code). -/
theorem C4_amended_degenerate_topologies (spans heights : List ℚ) :
    ((genNodes [] heights).length = heights.length + 1 ∧
      (genElements [] heights).length = heights.length ∧
      (genElements [] heights).map (fun e => e.kind) =
        List.replicate heights.length ElemKind.column) ∧
    ((genNodes spans []).length = spans.length + 1 ∧
      genElements spans [] = []) := by
  refine ⟨⟨?_, ?_, ?_⟩, ?_, ?_⟩
  · rw [genNodes_length]
    simp
  · rw [genElements_length]
    simp
  · rw [genElements_eq, List.map_append, genColGrid_kinds, genBeamGrid_kinds]
    simp
  · rw [genNodes_length]
    simp [Nat.one_mul]
  · rw [genElements_eq]
    simp [genColGrid, genBeamGrid]

/-- C5: the resolved distributed load of a beam is the per-element override
when present and the default otherwise, plus the self-weight term
unitWeight*9.81/1000 of the assigned section exactly when self-weight is
enabled; with self-weight disabled the result does not depend on the
section assignment or the catalog, and a resolved default of 6.3 stays
exactly 6.3. -/
theorem C5_beam_load_resolution (bl : Nat → Option ℚ) (dl v : ℚ)
    (es es2 : Nat → Option String) (w w2 : String → ℚ) (b : Nat) :
    (bl b = some v → resolve_beam_load bl dl true es w b =
      v + w ((es b).getD default_steel) * 9.81 / 1000) ∧
    (bl b = none → resolve_beam_load bl dl true es w b =
      dl + w ((es b).getD default_steel) * 9.81 / 1000) ∧
    resolve_beam_load bl dl false es w b =
      resolve_beam_load bl dl false es2 w2 b ∧
    (bl b = none → dl = 6.3 → resolve_beam_load bl dl false es w b = 6.3) := by
  refine ⟨?_, ?_, ?_, ?_⟩
  · intro h
    rw [resolve_beam_load, h]
    rfl
  · intro h
    rw [resolve_beam_load, h]
    rfl
  · rfl
  · intro h hdl
    rw [resolve_beam_load, h, hdl]
    rfl

/-- Witness for C5: an override of 5 and a default of 6.3, unit weight 10,
with and without self-weight. -/
theorem C5_beam_load_resolution_witness :
    resolve_beam_load (fun _ => some 5) 2 true (fun _ => none)
      (fun _ => 10) 1 = 5 + 10 * 9.81 / 1000 ∧
    resolve_beam_load (fun _ => none) 2 true (fun _ => none)
      (fun _ => 10) 1 = 2 + 10 * 9.81 / 1000 ∧
    resolve_beam_load (fun _ => none) 6.3 false (fun _ => some default_steel)
      (fun _ => 49.9) 1 =
      resolve_beam_load (fun _ => none) 6.3 false (fun _ => none)
        (fun _ => 77) 1 ∧
    resolve_beam_load (fun _ => none) 6.3 false (fun _ => some default_steel)
      (fun _ => 49.9) 1 = 6.3 :=
  ⟨(C5_beam_load_resolution (fun _ => some 5) 2 5 (fun _ => none)
      (fun _ => none) (fun _ => 10) (fun _ => 10) 1).1 rfl,
    (C5_beam_load_resolution (fun _ => none) 2 5 (fun _ => none)
      (fun _ => none) (fun _ => 10) (fun _ => 10) 1).2.1 rfl,
    (C5_beam_load_resolution (fun _ => none) 6.3 5
      (fun _ => some default_steel) (fun _ => none) (fun _ => 49.9)
      (fun _ => 77) 1).2.2.1,
    (C5_beam_load_resolution (fun _ => none) 6.3 5
      (fun _ => some default_steel) (fun _ => none) (fun _ => 49.9)
      (fun _ => 77) 1).2.2.2 rfl rfl⟩

/-- C6: with self-weight enabled, the column of floor j, line i receives no
distributed load (no beam-load entry carries its element id) and instead a
single concentrated nodal force at its top node, of value
-(unitWeight * 9.81/1000 * elementLength), where the element length equals
the story height heights[j]. -/
theorem C6_column_self_weight_nodal (spans heights : List ℚ)
    (es : Nat → Option String) (w : String → ℚ) (bl : Nat → Option ℚ)
    (dl : ℚ) (j i : Nat) (hh : ∀ h ∈ heights, (0 : ℚ) ≤ h)
    (hj : j < heights.length) (hi : i < spans.length + 1) :
    (⟨j * (spans.length + 1) + i + 1, j * (spans.length + 1) + i + 1,
        (j + 1) * (spans.length + 1) + i + 1⟩ : OpsElement) ∈
      opsColumns spans heights ∧
    element_length (opsNodes spans heights)
        ⟨j * (spans.length + 1) + i + 1, j * (spans.length + 1) + i + 1,
          (j + 1) * (spans.length + 1) + i + 1⟩ =
      ((heights.getD j 0 : ℚ) : ℝ) ∧
    ((j + 1) * (spans.length + 1) + i + 1,
        -((w ((es (j * (spans.length + 1) + i + 1)).getD default_steel) : ℝ) *
          9.81 / 1000 * ((heights.getD j 0 : ℚ) : ℝ))) ∈
      ops_column_weight_loads spans heights true es w ∧
    (j * (spans.length + 1) + i + 1) ∉
      (ops_beam_loads spans heights bl dl true es w).map (fun p => p.1) := by
  have hmem : (⟨j * (spans.length + 1) + i + 1, j * (spans.length + 1) + i + 1,
      (j + 1) * (spans.length + 1) + i + 1⟩ : OpsElement) ∈
      opsColumns spans heights := by
    rw [opsColumns_eq, colGrid]
    exact List.mem_flatMap.mpr ⟨j, List.mem_range.mpr hj,
      List.mem_map.mpr ⟨i, List.mem_range.mpr hi, rfl⟩⟩
  have hlen := element_length_column spans heights hh j i hj hi
  refine ⟨hmem, hlen, ?_, ?_⟩
  · rw [ops_column_weight_loads, if_pos rfl]
    refine List.mem_map.mpr ⟨_, hmem, ?_⟩
    rw [hlen]
  · intro hcon
    rcases List.mem_map.mp hcon with ⟨p, hp, hpid⟩
    rw [ops_beam_loads] at hp
    rcases List.mem_map.mp hp with ⟨bele, hbele, rfl⟩
    rw [opsBeams_eq] at hbele
    rcases mem_beamGrid hbele with ⟨jm, i2, hjm, hi2, rfl⟩
    simp only at hpid
    have hlt : j * (spans.length + 1) + i + 1 ≤
        heights.length * (spans.length + 1) := by
      have h1 : (j + 1) * (spans.length + 1) ≤
          heights.length * (spans.length + 1) :=
        Nat.mul_le_mul_right _ hj
      rw [Nat.add_one_mul] at h1
      linarith
    linarith [hlt, hpid, Nat.zero_le (jm * spans.length), Nat.zero_le i2]

/-- Witness for C6: a 4 m single-bay single-story frame with unit weight
49.9 kg/m; the column self-weight load is 49.9 * 9.81/1000 * 4 = 1.958076 kN
downward at the top node. -/
theorem C6_column_self_weight_nodal_witness :
    (∀ h ∈ ([4] : List ℚ), (0 : ℚ) ≤ h) ∧
    (0 : Nat) < ([4] : List ℚ).length ∧ (0 : Nat) < ([6] : List ℚ).length + 1 ∧
    ((⟨1, 1, 3⟩ : OpsElement) ∈ opsColumns [6] [4] ∧
      element_length (opsNodes [6] [4]) ⟨1, 1, 3⟩ =
        ((([4] : List ℚ).getD 0 0 : ℚ) : ℝ) ∧
      (3, -((((fun _ : String => (49.9 : ℚ))
            (((fun _ : Nat => (none : Option String)) 1).getD default_steel) : ℚ) : ℝ) *
          9.81 / 1000 * ((([4] : List ℚ).getD 0 0 : ℚ) : ℝ))) ∈
        ops_column_weight_loads [6] [4] true (fun _ => none) (fun _ => 49.9) ∧
      (1 : Nat) ∉
        (ops_beam_loads [6] [4] (fun _ => none) 0 true (fun _ => none)
          (fun _ => 49.9)).map (fun p => p.1)) ∧
    -((49.9 : ℝ) * 9.81 / 1000 * ((4 : ℚ) : ℝ)) = -1.958076 :=
  ⟨by decide, by decide, by decide,
    C6_column_self_weight_nodal [6] [4] (fun _ => none) (fun _ => 49.9)
      (fun _ => none) 0 0 0 (by decide) (by decide) (by decide),
    by push_cast; norm_num⟩

/-- C2: the library function calculate_column_stability_check computes its
Euler load N_ey from lambda_x (lambda_y is not even a parameter), so at
lambda_x = 200 it reports an infinite out-of-plane ratio for a 100 kN load
even though with the out-of-plane slenderness lambda_y = 10 the same
configuration is far below the Euler load: the inline check of
perform_verification, which computes N_ey from lambda_y, returns a finite
ratio there. -/
theorem C2_Ney_uses_lambda_x_not_lambda_y :
    (calculate_column_stability_check 100 0 1000 100000 0.5 0.5 215 200
      1.05 1 0 1).2 = Ratio.infinite ∧
    (verification_column_check 100 0 0 1000 100000 0.5 0.5 215 200 10).2
      ≠ Ratio.infinite := by
  constructor
  · simp only [calculate_column_stability_check]
    have hpi2 : Real.pi ^ 2 < 10 := by nlinarith [Real.pi_lt_315, Real.pi_pos]
    rw [if_pos]
    rw [div_le_iff (by norm_num)]
    nlinarith [hpi2, sq_nonneg Real.pi]
  · simp only [verification_column_check]
    have hpi2 : (9 : ℝ) < Real.pi ^ 2 := by
      nlinarith [Real.pi_gt_314, Real.pi_pos]
    have habs : |(100 : ℝ)| = 100 := by norm_num
    have hNey : (100 : ℝ) * 1000 < Real.pi ^ 2 * 2.06e5 * 1000 / 10 ^ 2 := by
      rw [lt_div_iff (by norm_num)]
      nlinarith [hpi2]
    rw [habs, if_neg (not_le.mpr hNey), if_neg]
    · intro h
      exact Ratio.noConfusion h
    · push_neg
      have hfrac : (100 : ℝ) * 1000 /
          (Real.pi ^ 2 * 2.06e5 * 1000 / 10 ^ 2) < 1 := by
        rw [div_lt_one (by positivity)]
        exact hNey
      nlinarith [hfrac]

/-- C8 counterexample: the ratio functions themselves do not take absolute
values: fed a negative axial force and moment (as raw solver output could
be), calculate_beam_strength_check returns a negative strength ratio. -/
theorem C8_counterexample_negative_ratio :
    (calculate_beam_strength_check (-1) (-1) (-1) 1 1 1 1 1 1.05).1 < 0 := by
  simp only [calculate_beam_strength_check]
  norm_num

/-- C8 amended: the absolute values are taken by the verification driver,
not by the ratio formulas themselves; with the driver wrappers (which embed
the abs-taking of perform_verification) and positive section and strength
parameters, both beam ratios are finite and nonnegative, each column ratio
is the infinite sentinel or finite and nonnegative, and flipping the sign
of every force input leaves all ratios unchanged. -/
theorem C8_amended_driver_ratios_nonneg (f0 f1 f2 f4 f5 A Wx Aw f fv px py
    lx ly : ℝ) (hA : 0 < A) (hW : 0 < Wx) (hAw : 0 < Aw) (hf : 0 < f)
    (hfv : 0 < fv) (hpx : 0 < px) (hpy : 0 < py) (hlx : 0 < lx)
    (hly : 0 < ly) :
    0 ≤ (verification_beam_ratios f0 f1 f2 f4 f5 A Wx Aw f fv).1 ∧
    0 ≤ (verification_beam_ratios f0 f1 f2 f4 f5 A Wx Aw f fv).2 ∧
    verification_beam_ratios f0 f1 f2 f4 f5 A Wx Aw f fv =
      verification_beam_ratios (-f0) (-f1) (-f2) (-f4) (-f5) A Wx Aw f fv ∧
    Ratio.nonnegOrInfinite
      (verification_column_check f1 f2 f5 A Wx px py f lx ly).1 ∧
    Ratio.nonnegOrInfinite
      (verification_column_check f1 f2 f5 A Wx px py f lx ly).2 ∧
    verification_column_check f1 f2 f5 A Wx px py f lx ly =
      verification_column_check (-f1) (-f2) (-f5) A Wx px py f lx ly := by
  refine ⟨?_, ?_, ?_, ?_, ?_, ?_⟩
  · simp only [verification_beam_ratios, calculate_beam_strength_check]
    positivity
  · simp only [verification_beam_ratios, calculate_beam_strength_check]
    positivity
  · simp only [verification_beam_ratios, abs_neg]
  · simp only [verification_column_check]
    split_ifs with h1
    · trivial
    · simp only [Ratio.nonnegOrInfinite]
      push_neg at h1
      have hN : (0 : ℝ) ≤ |f1| * 1000 := by positivity
      have hNex : (0 : ℝ) < Real.pi ^ 2 * 2.06e5 * A / lx ^ 2 := by positivity
      have h08 : 0.8 * (|f1| * 1000) < Real.pi ^ 2 * 2.06e5 * A / lx ^ 2 := by
        nlinarith [h1, hN]
      have hden : (0 : ℝ) < 1 - 0.8 * (|f1| * 1000) /
          (Real.pi ^ 2 * 2.06e5 * A / lx ^ 2) := by
        have hx := (div_lt_one hNex).mpr h08
        linarith [hx]
      refine add_nonneg (div_nonneg hN (by positivity)) ?_
      refine div_nonneg (by positivity) ?_
      exact (mul_pos (by positivity : (0 : ℝ) < 1.05 * Wx * f) hden).le
  · simp only [verification_column_check]
    split_ifs with h1 h2
    · trivial
    · trivial
    · simp only [Ratio.nonnegOrInfinite]
      push_neg at h2
      exact add_nonneg (div_nonneg (by positivity) (by positivity))
        (div_nonneg (by positivity) h2.le)
  · simp only [verification_column_check, abs_neg]

/-- Witness for the amended C8 with every force and parameter equal to 1. -/
theorem C8_amended_driver_ratios_nonneg_witness :
    (0 : ℝ) < 1 ∧
    (0 ≤ (verification_beam_ratios 1 1 1 1 1 1 1 1 1 1).1 ∧
      0 ≤ (verification_beam_ratios 1 1 1 1 1 1 1 1 1 1).2 ∧
      verification_beam_ratios 1 1 1 1 1 1 1 1 1 1 =
        verification_beam_ratios (-1) (-1) (-1) (-1) (-1) 1 1 1 1 1 ∧
      Ratio.nonnegOrInfinite
        (verification_column_check 1 1 1 1 1 1 1 1 1 1).1 ∧
      Ratio.nonnegOrInfinite
        (verification_column_check 1 1 1 1 1 1 1 1 1 1).2 ∧
      verification_column_check 1 1 1 1 1 1 1 1 1 1 =
        verification_column_check (-1) (-1) (-1) 1 1 1 1 1 1 1) :=
  ⟨by norm_num,
    C8_amended_driver_ratios_nonneg 1 1 1 1 1 1 1 1 1 1 1 1 1 1
      (by norm_num) (by norm_num) (by norm_num) (by norm_num) (by norm_num)
      (by norm_num) (by norm_num) (by norm_num) (by norm_num)⟩

end SteelFrame
